import Mathlib

/-!
Shallow embedding of `crates/gpui3/src/elements/nested.rs`: the element
composition layer (layout node, styled wrapper, hoverable wrapper, clickable
wrapper) together with the style-cascade and mouse-event collaborators it
uses. Pure data is translated directly; the mutable per-frame state (style
cascade, cached style, hover flag, mouse-down record) is threaded explicitly,
and the effects performed against the view context (layout requests, paint
commands, redraw requests, listener invocations) are recorded in explicit
logs so that ordering claims can be stated and proved.
-/

/-- Modelled from the spec: a 2-d point, the position carried by mouse
events (`Point<Pixels>` lives in the gpui3 geometry module, outside the
provided sources). Coordinates are integers. -/
structure Point where
  x : Int
  y : Int
deriving DecidableEq, Repr

/-- Modelled from the spec: an axis-aligned rectangle given by origin and
size (`Bounds<Pixels>` lives in the gpui3 geometry module, outside the
provided sources). -/
structure Bounds where
  origin : Point
  size : Point
deriving DecidableEq, Repr

/-- Modelled from the spec: pointer containment against a rectangle, as in
the spec scenario "bounds B=(0,0,100,100); pointer at (150,150) -> false;
(50,50) -> true" (`Bounds::contains_point` is outside the provided
sources). -/
def Bounds.containsPoint (b : Bounds) (p : Point) : Bool :=
  b.origin.x ≤ p.x && p.x ≤ b.origin.x + b.size.x &&
  b.origin.y ≤ p.y && p.y ≤ b.origin.y + b.size.y

/-- Modelled from the spec: a fully-resolved style. The concrete `Style`
struct lives in gpui3's style module, outside the provided sources; the
spec only requires a record of independent fields, so two representative
fields are used. -/
structure Style where
  a : Nat
  b : Nat
deriving DecidableEq, Repr

/-- Modelled from the spec: a style refinement — a partial style whose set
fields override the corresponding fields of whatever it refines
(`StyleRefinement`, outside the provided sources). -/
structure StyleRefinement where
  a : Option Nat
  b : Option Nat
deriving DecidableEq, Repr

/-- The base default style (`Style::default()`). -/
def Style.default : Style := ⟨0, 0⟩

/-- Modelled from the spec: applying a refinement onto a style — each set
field of the refinement overrides the style's field (`Refineable::refined`,
outside the provided sources). -/
def Style.refined (s : Style) (r : StyleRefinement) : Style :=
  ⟨r.a.getD s.a, r.b.getD s.b⟩

/-- Modelled from the spec: refining a refinement with a later one — fields
set in the later refinement win, fields it leaves unset fall through
("later slots overriding earlier ones"). -/
def StyleRefinement.refineWith (base r : StyleRefinement) : StyleRefinement :=
  ⟨(r.a.orElse fun _ => base.a), (r.b.orElse fun _ => base.b)⟩

/-- Modelled from the spec: `StyleRefinement::is_some()` — whether the
refinement sets at least one field (used by the clickable wrapper's
paint-time guard `self.active_style.is_some()`). -/
def StyleRefinement.is_some (r : StyleRefinement) : Bool :=
  r.a.isSome || r.b.isSome

/-- The empty refinement (`StyleRefinement::default()`): no field set. -/
def StyleRefinement.empty : StyleRefinement := ⟨none, none⟩

/-- Modelled from the spec: the style cascade — "an ordered list of optional
style-refinement slots, each identified by a stable slot token"
(`refineable::Cascade`, outside the provided sources). Slot tokens are the
indices into the list. -/
abbrev StyleCascade := List (Option StyleRefinement)

/-- The empty cascade. -/
def StyleCascade.empty : StyleCascade := []

/-- Modelled from the spec: `set(slot, refinement)` "stores or clears a
refinement at a given slot"; the slot list is padded with absent entries as
needed so the slot index is stable. -/
def StyleCascade.set (c : StyleCascade) (slot : Nat) (r : Option StyleRefinement) :
    StyleCascade :=
  List.set (c ++ List.replicate (slot + 1 - c.length) none) slot r

/-- Reads the refinement currently stored at a slot (absent if the slot was
never set). -/
def StyleCascade.get (c : StyleCascade) (slot : Nat) : Option StyleRefinement :=
  (getElem? c slot).join

/-- Modelled from the spec: `merged()` "folds all set slots in slot order
into one refinement"; absent slots contribute nothing. -/
def StyleCascade.merged (c : StyleCascade) : StyleRefinement :=
  c.foldl (fun acc o => match o with | some r => acc.refineWith r | none => acc)
    StyleRefinement.empty

/-- `DispatchPhase` (gpui3): capture runs root-to-target before bubble. -/
inductive DispatchPhase where
  | Capture
  | Bubble
deriving DecidableEq, Repr

/-- `MouseDownEvent`, reduced to the field the element layer reads
(`position`). -/
structure MouseDownEvent where
  position : Point
deriving DecidableEq, Repr

/-- `MouseUpEvent`, reduced to the field the element layer reads
(`position`). -/
structure MouseUpEvent where
  position : Point
deriving DecidableEq, Repr

/-- `MouseMoveEvent`, reduced to the field the element layer reads
(`position`). -/
structure MouseMoveEvent where
  position : Point
deriving DecidableEq, Repr

/-- `MouseClickEvent` from nested.rs: the composed click event, `down` the
stored press and `up` the release. -/
structure MouseClickEvent where
  down : MouseDownEvent
  up : MouseUpEvent
deriving DecidableEq, Repr

/-- Modelled from the spec: a type-erased child element (`AnyElement`,
outside the provided sources). The element layer only ever delegates to a
child's `layout` and `paint`; a child is modelled as an observable token:
its layout requests one box with its own style and no children, and its
paint emits one identifiable paint command, so that the order of
delegations is visible in the logs. -/
structure ChildElement where
  tag : Nat
  style : Style
deriving DecidableEq, Repr

/-- `LayoutNodeState` from nested.rs: a style cascade, the lazily cached
computed style, and the ordered child list. -/
structure LayoutNodeState where
  style_cascade : StyleCascade
  computed_style : Option Style
  children : List ChildElement
deriving DecidableEq

/-- `Styled::computed_style` as implemented for `LayoutNodeState`:
`self.computed_style.get_or_insert_with(|| Style::default().refined(self.style_cascade.merged()))`.
Returns the style together with the node after the cache fill. -/
def LayoutNodeState.computedStyle (n : LayoutNodeState) : Style × LayoutNodeState :=
  match n.computed_style with
  | some s => (s, n)
  | none =>
    let s := Style.default.refined n.style_cascade.merged
    (s, { n with computed_style := some s })

/-- `self.style_cascade().set(slot, r)` on a layout node: updates the
cascade field; the `computed_style` cache field is untouched (nothing in
the source clears it). -/
def LayoutNodeState.setCascade (n : LayoutNodeState) (slot : Nat)
    (r : Option StyleRefinement) : LayoutNodeState :=
  { n with style_cascade := n.style_cascade.set slot r }

/-- `Element::element_id` for `LayoutNodeState`: always `None`. -/
def LayoutNodeState.element_id (_ : LayoutNodeState) : Option Nat := none

/-- The layout-engine collaborator, as the element layer observes it: a
counter of issued layout ids and the log of `request_layout(style, childIds)`
calls made against it. -/
structure LayoutCtx where
  next_id : Nat
  requests : List (Style × List Nat)
deriving DecidableEq

/-- `cx.request_layout(style, child_ids)`: registers a box in the layout
solver and returns a fresh opaque id. -/
def request_layout (s : Style) (ids : List Nat) (ctx : LayoutCtx) : Nat × LayoutCtx :=
  (ctx.next_id, ⟨ctx.next_id + 1, ctx.requests ++ [(s, ids)]⟩)

/-- Layout of a type-erased child (`child.layout(state, cx)`): requests its
own box. -/
def ChildElement.layout (c : ChildElement) (ctx : LayoutCtx) : Nat × LayoutCtx :=
  request_layout c.style [] ctx

/-- The child loop of `LayoutNodeState::layout`: lay out each child in list
order, collecting the layout ids in the same order. -/
def layoutChildren : List ChildElement → LayoutCtx → List Nat × LayoutCtx
  | [], ctx => ([], ctx)
  | c :: cs, ctx =>
    let (id, ctx') := c.layout ctx
    let (ids, ctx'') := layoutChildren cs ctx'
    (id :: ids, ctx'')

/-- `LayoutNodeState::layout`: children first, then the resolved style is
read (filling the cache), then one layout id is requested for self with the
ordered child-id list; returns the id paired with the unit element state. -/
def LayoutNodeState.layout (n : LayoutNodeState) (ctx : LayoutCtx) :
    (Nat × Unit) × LayoutNodeState × LayoutCtx :=
  let (layout_ids, ctx') := layoutChildren n.children ctx
  let (style, n') := n.computedStyle
  let (layout_id, ctx'') := request_layout style layout_ids ctx'
  ((layout_id, ()), n', ctx'')

/-- A paint-time effect, as observed through the view context: either the
paint of a resolved style at some bounds (`Style::paint`), or the paint of
a type-erased child element. -/
inductive PaintOp where
  | style (s : Style) (b : Bounds)
  | element (tag : Nat)
deriving DecidableEq, Repr

/-- The paint side of the view context: the ordered log of paint effects. -/
structure PaintCtx where
  ops : List PaintOp
deriving DecidableEq

/-- Paint of a type-erased child (`child.paint(state, None, cx)`): emits its
identifiable paint command. -/
def ChildElement.paint (c : ChildElement) (ctx : PaintCtx) : PaintCtx :=
  ⟨ctx.ops ++ [PaintOp.element c.tag]⟩

/-- `LayoutNodeState::paint`: paint each child in order; no local drawing. -/
def LayoutNodeState.paint (n : LayoutNodeState) (_ : Bounds) (ctx : PaintCtx) :
    PaintCtx :=
  n.children.foldl (fun acc c => c.paint acc) ctx

/-- Modelled from the spec: `Style::paint(bounds, cx)` (outside the provided
sources) — emits the style's paint-time side effect (background, borders)
at the given bounds. -/
def Style.paintStyle (s : Style) (b : Bounds) (ctx : PaintCtx) : PaintCtx :=
  ⟨ctx.ops ++ [PaintOp.style s b]⟩

/-- `StyledElement` from nested.rs: a wrapper holding only its child. The
only `Styled` element among the provided sources is `LayoutNodeState`, so
the wrapper is instantiated at it. -/
structure StyledElement where
  child : LayoutNodeState
deriving DecidableEq

/-- `Element::element_id` for `StyledElement`: delegates to the child. -/
def StyledElement.element_id (e : StyledElement) : Option Nat :=
  e.child.element_id

/-- `Element::layout` for `StyledElement`: delegates to the child
unchanged. -/
def StyledElement.layout (e : StyledElement) (ctx : LayoutCtx) :
    (Nat × Unit) × StyledElement × LayoutCtx :=
  let ((id, st), child', ctx') := e.child.layout ctx
  ((id, st), ⟨child'⟩, ctx')

/-- `Element::paint` for `StyledElement`:
`self.child.computed_style().paint(bounds, cx); self.child.paint(bounds, ...)` —
first the child's resolved style is read (filling its cache) and painted at
the given bounds, then paint is delegated to the child. -/
def StyledElement.paint (e : StyledElement) (bounds : Bounds) (ctx : PaintCtx) :
    StyledElement × PaintCtx :=
  let (s, child') := e.child.computedStyle
  let ctx' := s.paintStyle bounds ctx
  let ctx'' := child'.paint bounds ctx'
  (⟨child'⟩, ctx'')

/-- Modelled from the spec: `group_bounds(name, cx)` (outside the provided
sources) — the named-group bounds registry lookup, which may miss. The
registry is modelled as an association list. -/
def group_bounds (groups : List (String × Bounds)) (name : String) : Option Bounds :=
  (groups.find? (fun p => p.1 == name)).map (fun p => p.2)

/-- `HoverableElement` from nested.rs: hover refinement, optional group
name, reserved cascade slot, the shared hover flag (content of the
`Arc<AtomicBool>`), and the child. -/
structure HoverableElement where
  hover_style : StyleRefinement
  group : Option String
  cascade_slot : Nat
  hovered : Bool
  child : LayoutNodeState
deriving DecidableEq

/-- The paint-relevant part of the view context seen by the hoverable
wrapper: the current mouse position and the named-group bounds registry. -/
structure HoverCtx where
  mousePos : Point
  groups : List (String × Bounds)
deriving DecidableEq

/-- The mouse-move listener registered by `HoverableElement::paint`,
reified: it captures the target bounds it tested at paint time (the hover
flag and redraw counter are threaded through the dispatch state). -/
structure MoveListener where
  target : Bounds
deriving DecidableEq, Repr

/-- The cross-frame state the hoverable listener interacts with: the shared
hover flag and the count of `cx.notify()` redraw requests. -/
structure HoverDispatchState where
  flag : Bool
  notifies : Nat
deriving DecidableEq, Repr

/-- `HoverableElement::paint` (before delegating to the child): resolve the
target bounds (named group if configured and found, else own paint bounds),
test containment of the mouse position, set the reserved cascade slot of
the child to the hover refinement or clear it, store the containment into
the shared flag, and register the mouse-move listener. -/
def HoverableElement.paint (e : HoverableElement) (bounds : Bounds) (ctx : HoverCtx) :
    HoverableElement × MoveListener :=
  let target := (e.group.bind (fun g => group_bounds ctx.groups g)).getD bounds
  let hovered := target.containsPoint ctx.mousePos
  let child' := e.child.setCascade e.cascade_slot
    (if hovered then some e.hover_style else none)
  ({ e with hovered := hovered, child := child' }, ⟨target⟩)

/-- The body of the mouse-move listener closure registered by
`HoverableElement::paint`: in the capture phase, if fresh containment
differs from the stored flag, request a redraw; the flag itself is never
written. -/
def MoveListener.run (l : MoveListener) (ev : MouseMoveEvent) (phase : DispatchPhase)
    (st : HoverDispatchState) : HoverDispatchState :=
  if phase = DispatchPhase.Capture then
    if l.target.containsPoint ev.position ≠ st.flag then
      { st with notifies := st.notifies + 1 }
    else st
  else st

/-- `ClickableElement` from nested.rs: the child (a `Styled`,
`IdentifiedElement` element, instantiated at `LayoutNodeState` with a
stable identity), the registered click listeners (reified as identifiers
in registration order — a listener invocation is recorded in the dispatch
log rather than run), the active style and the reserved cascade slot. -/
structure ClickableElement where
  child : LayoutNodeState
  elem_id : Nat
  listeners : List Nat
  active_style : StyleRefinement
  cascade_slot : Nat
deriving DecidableEq

/-- `Element::element_id` for `ClickableElement`: always the child's stable
identity. -/
def ClickableElement.element_id (e : ClickableElement) : Option Nat :=
  some e.elem_id

/-- The cross-frame state the clickable listeners interact with: the
mouse-down record (content of the `Arc<Mutex<Option<MouseDownEvent>>>`),
the count of `cx.notify()` redraw requests, and the ordered log of click
listener invocations (listener identifier paired with the composed click
event). -/
structure ClickDispatchState where
  record : Option MouseDownEvent
  notifies : Nat
  clicks : List (Nat × MouseClickEvent)
deriving DecidableEq, Repr

/-- The mouse listener registered by `ClickableElement::paint`, reified
with everything the closure captures by value: either the release listener
(paint bounds, cloned listener list, cloned stored press event) or the
press listener (paint bounds). -/
inductive MouseListener where
  | upL (bounds : Bounds) (listeners : List Nat) (down : MouseDownEvent)
  | downL (bounds : Bounds)
deriving DecidableEq, Repr

/-- The listener-registration half of `ClickableElement::paint`: if any
click listener is registered or the active style is non-empty, then — when
a press is captured — re-apply the active style into the cascade slot and
register the release listener (capturing a clone of the stored press),
else register the press listener; otherwise register nothing. Returns the
registration and the child after any cascade write. -/
def ClickableElement.paintRegister (e : ClickableElement) (bounds : Bounds)
    (record : Option MouseDownEvent) : Option MouseListener × LayoutNodeState :=
  if !e.listeners.isEmpty || e.active_style.is_some then
    match record with
    | some down =>
      (some (MouseListener.upL bounds e.listeners down),
        e.child.setCascade e.cascade_slot (some e.active_style))
    | none => (some (MouseListener.downL bounds), e.child)
  else (none, e.child)

/-- The body of the closure registered through `cx.on_mouse_event` by
`ClickableElement::paint`, for a mouse-up event. The release listener:
when in the bubble phase and the release point is inside the captured
bounds, invoke every listener in order with the composed click event; then,
in every phase and wherever the release landed, clear the mouse-down record
and request a redraw. The press listener ignores mouse-up events. -/
def MouseListener.runUp (l : MouseListener) (up : MouseUpEvent) (phase : DispatchPhase)
    (st : ClickDispatchState) : ClickDispatchState :=
  match l with
  | MouseListener.upL bounds listeners down =>
    let st' :=
      if phase = DispatchPhase.Bubble ∧ bounds.containsPoint up.position then
        { st with clicks := st.clicks ++ listeners.map (fun l => (l, ⟨down, up⟩)) }
      else st
    { st' with record := none, notifies := st'.notifies + 1 }
  | MouseListener.downL _ => st

/-- The body of the closure registered through `cx.on_mouse_event` by
`ClickableElement::paint`, for a mouse-down event. The press listener:
when in the bubble phase and the press point is inside the captured bounds,
store the press into the mouse-down record and request a redraw. The
release listener ignores mouse-down events. -/
def MouseListener.runDown (l : MouseListener) (down : MouseDownEvent)
    (phase : DispatchPhase) (st : ClickDispatchState) : ClickDispatchState :=
  match l with
  | MouseListener.downL bounds =>
    if phase = DispatchPhase.Bubble ∧ bounds.containsPoint down.position then
      { st with record := some down, notifies := st.notifies + 1 }
    else st
  | MouseListener.upL _ _ _ => st

/-- A platform input event delivered to the window during a frame. -/
inductive InputEvent where
  | down (e : MouseDownEvent)
  | up (e : MouseUpEvent)
deriving DecidableEq, Repr

/-- Dispatch of one platform input event through the frame's registered
mouse listener (if any): the listener is invoked in the capture phase and
then in the bubble phase, matching the event dispatcher's two-phase
traversal. -/
def dispatchEvent (reg : Option MouseListener) (ev : InputEvent)
    (st : ClickDispatchState) : ClickDispatchState :=
  match reg with
  | none => st
  | some l =>
    match ev with
    | InputEvent.down d => l.runDown d DispatchPhase.Bubble (l.runDown d DispatchPhase.Capture st)
    | InputEvent.up u => l.runUp u DispatchPhase.Bubble (l.runUp u DispatchPhase.Capture st)

/-- One frame of the clickable wrapper's life: paint (which registers the
listener as a function of the mouse-down record at paint time), then the
frame's input events dispatched through that fixed registration. -/
def runFrame (e : ClickableElement) (bounds : Bounds) (st : ClickDispatchState)
    (events : List InputEvent) : ClickDispatchState :=
  let (reg, _) := e.paintRegister bounds st.record
  events.foldl (fun s ev => dispatchEvent reg ev s) st

/-- A sequence of frames, each repainting (re-deriving the registration
from the current record) and then dispatching its events. -/
def runFrames (e : ClickableElement) (bounds : Bounds) (st : ClickDispatchState)
    (frames : List (List InputEvent)) : ClickDispatchState :=
  frames.foldl (fun s evs => runFrame e bounds s evs) st

/-- Painting a child list folds to appending one identifiable paint command
per child, in list order. -/
lemma paintChildren_ops (cs : List ChildElement) (ctx : PaintCtx) :
    cs.foldl (fun acc c => c.paint acc) ctx =
      ⟨ctx.ops ++ cs.map (fun c => PaintOp.element c.tag)⟩ := by
  induction cs generalizing ctx with
  | nil => simp
  | cons c cs ih =>
    rw [List.foldl_cons, ih]
    simp [ChildElement.paint]

/-- Reading the computed style never touches the child list. -/
lemma computedStyle_children (n : LayoutNodeState) :
    ((n.computedStyle).2).children = n.children := by
  unfold LayoutNodeState.computedStyle
  cases n.computed_style <;> rfl

/-- One mouse-move dispatch never writes the hover flag. -/
lemma moveRun_flag (l : MoveListener) (ev : MouseMoveEvent) (phase : DispatchPhase)
    (st : HoverDispatchState) : (l.run ev phase st).flag = st.flag := by
  unfold MoveListener.run
  split
  · split <;> rfl
  · rfl

/-- A whole sequence of mouse-move dispatches never writes the hover
flag. -/
lemma moveFold_flag (l : MoveListener) (moves : List (MouseMoveEvent × DispatchPhase))
    (st : HoverDispatchState) :
    (moves.foldl (fun s m => l.run m.1 m.2 s) st).flag = st.flag := by
  induction moves generalizing st with
  | nil => rfl
  | cons m ms ih => rw [List.foldl_cons, ih, moveRun_flag]

/-! ## Concrete fixtures used by witnesses and counterexamples -/

/-- The rectangle (0,0)–(100,100) from the spec's worked scenarios. -/
def boundsStd : Bounds := ⟨⟨0, 0⟩, ⟨100, 100⟩⟩

/-- A point inside `boundsStd`. -/
def pIn : Point := ⟨50, 50⟩

/-- A point outside `boundsStd`. -/
def pOut : Point := ⟨150, 150⟩

/-- A bare layout node: empty cascade, no cached style, no children. -/
def nodeEmpty : LayoutNodeState := ⟨[], none, []⟩

/-- A refinement setting the first style field to 5. -/
def refFive : StyleRefinement := ⟨some 5, none⟩

/-- A clickable wrapper with one registered click listener (identifier 0). -/
def clickElem : ClickableElement := ⟨nodeEmpty, 7, [0], StyleRefinement.empty, 0⟩

/-- A clickable wrapper with two registered click listeners, identifiers 3
then 8 in registration order. -/
def clickElemTwo : ClickableElement := ⟨nodeEmpty, 7, [3, 8], StyleRefinement.empty, 0⟩

/-- A hoverable wrapper configured with a group name that is absent from
the registry, a hover refinement, and cascade slot 1. -/
def hoverElem : HoverableElement := ⟨⟨some 9, none⟩, some "grp", 1, false, nodeEmpty⟩

/-! ## Helper lemmas -/

/-- The padded slot list built by `StyleCascade.set` is long enough to hold
the target slot. -/
lemma StyleCascade.lt_length_padded (c : StyleCascade) (slot : Nat) :
    slot < (c ++ List.replicate (slot + 1 - c.length) (none : Option StyleRefinement)).length := by
  simp only [List.length_append, List.length_replicate]
  omega

/-- Writing a slot and reading it back yields the written refinement. -/
lemma StyleCascade.get_set_self (c : StyleCascade) (slot : Nat)
    (r : Option StyleRefinement) : (c.set slot r).get slot = r := by
  unfold StyleCascade.set StyleCascade.get
  rw [List.getElem?_set_eq_of_lt r (StyleCascade.lt_length_padded c slot)]
  rfl

/-- Writing one slot leaves every other slot's stored refinement
unchanged. -/
lemma StyleCascade.get_set_ne (c : StyleCascade) (slot s : Nat)
    (r : Option StyleRefinement) (h : s ≠ slot) :
    (c.set slot r).get s = c.get s := by
  unfold StyleCascade.set StyleCascade.get
  rw [List.getElem?_set_ne (fun hh => h hh.symm)]
  rcases Nat.lt_or_ge s c.length with hs | hs
  · rw [List.getElem?_append_left hs]
  · rw [List.getElem?_append_right hs, List.getElem?_eq_none hs,
      List.getElem?_replicate]
    split <;> rfl

/-- The child loop of `LayoutNodeState::layout` hands out consecutive
layout ids in child order and logs exactly one request per child, in list
order. -/
lemma layoutChildren_spec (cs : List ChildElement) (ctx : LayoutCtx) :
    layoutChildren cs ctx =
      (List.range' ctx.next_id cs.length,
        ⟨ctx.next_id + cs.length,
          ctx.requests ++ cs.map (fun c => (c.style, ([] : List Nat)))⟩) := by
  induction cs generalizing ctx with
  | nil => simp [layoutChildren, List.range']
  | cons c cs ih =>
    simp only [layoutChildren, ChildElement.layout, request_layout, ih,
      List.length_cons, List.range'_succ, List.map_cons, List.append_assoc,
      List.singleton_append]
    refine congrArg₂ Prod.mk rfl ?_
    refine congrArg₂ LayoutCtx.mk (by omega) rfl



/-! ## Claims -/

/-- C7: `LayoutNodeState::layout` invokes each child's layout in list order
(one request logged per child, in order, receiving consecutive layout
ids), then requests a single layout id for itself passing the resolved
style and the ordered child-id list, and returns that id paired with the
unit element state. -/
theorem C7_layout_children_in_order (n : LayoutNodeState) (ctx : LayoutCtx) :
    (n.layout ctx).1 = (ctx.next_id + n.children.length, ()) ∧
    (n.layout ctx).2.2.requests =
      ctx.requests ++ n.children.map (fun c => (c.style, ([] : List Nat))) ++
        [((n.computedStyle).1, List.range' ctx.next_id n.children.length)] ∧
    (n.layout ctx).2.2.next_id = ctx.next_id + n.children.length + 1 := by
  unfold LayoutNodeState.layout
  rw [layoutChildren_spec]
  simp [request_layout]

/-- C8: a layout node with zero children passes an empty child-id list to
the layout engine and returns the id the engine produces; painting it
performs no effect at all. -/
theorem C8_zero_children (n : LayoutNodeState) (ctx : LayoutCtx) (bounds : Bounds)
    (pctx : PaintCtx) (h : n.children = []) :
    (n.layout ctx).1.1 = ctx.next_id ∧
    (n.layout ctx).2.2.requests =
      ctx.requests ++ [((n.computedStyle).1, ([] : List Nat))] ∧
    n.paint bounds pctx = pctx := by
  unfold LayoutNodeState.layout LayoutNodeState.paint
  rw [h]
  simp [layoutChildren, request_layout]

/-- C8 witness: the bare node laid out from a fresh engine takes id 0 and
logs one request with the empty child-id list; painting it is the
identity. -/
theorem C8_zero_children_witness :
    nodeEmpty.children = [] ∧
    ((nodeEmpty.layout ⟨0, []⟩).1.1 = 0 ∧
      (nodeEmpty.layout ⟨0, []⟩).2.2.requests =
        ([] : List (Style × List Nat)) ++ [((nodeEmpty.computedStyle).1, ([] : List Nat))] ∧
      nodeEmpty.paint boundsStd ⟨[]⟩ = ⟨[]⟩) :=
  ⟨rfl, C8_zero_children nodeEmpty ⟨0, []⟩ boundsStd ⟨[]⟩ rfl⟩

/-- C9: `StyledElement::paint` first paints the wrapped element's resolved
style at the given bounds and then delegates paint to the wrapped element,
in that order (the style command precedes, in the log, every command the
child emits); `layout` and `element_id` delegate to the wrapped element
unchanged. -/
theorem C9_styled_wrapper_delegates (e : StyledElement) (bounds : Bounds)
    (pctx : PaintCtx) (ctx : LayoutCtx) :
    (e.paint bounds pctx).2.ops =
      pctx.ops ++ PaintOp.style ((e.child.computedStyle).1) bounds ::
        e.child.children.map (fun c => PaintOp.element c.tag) ∧
    (e.paint bounds pctx).1.child = (e.child.computedStyle).2 ∧
    e.layout ctx =
      ((e.child.layout ctx).1, ⟨(e.child.layout ctx).2.1⟩, (e.child.layout ctx).2.2) ∧
    e.element_id = e.child.element_id := by
  refine ⟨?_, ?_, ?_, rfl⟩
  · unfold StyledElement.paint Style.paintStyle LayoutNodeState.paint
    rcases h : e.child.computedStyle with ⟨s, child'⟩
    have hch : child'.children = e.child.children := by
      have hc := computedStyle_children e.child
      rw [h] at hc
      exact hc
    simp only [h, paintChildren_ops, hch, List.append_assoc, List.singleton_append]
  · unfold StyledElement.paint
    rfl
  · unfold StyledElement.layout
    rcases h : e.child.layout ctx with ⟨⟨id, st⟩, c, cc⟩
    simp [h]

/-- C1 counterexample: the cached resolved style of the layout node is NOT
invalidated when its cascade changes. After `computed_style()` has been
called once on a fresh node, a `set(0, {a := 5})` on the cascade followed by
another `computed_style()` returns the stale cached snapshot, not the
default style refined by the new merged cascade. -/
theorem C1_stale_cache_counterexample :
    ((((nodeEmpty.computedStyle).2).setCascade 0 (some refFive)).computedStyle).1 ≠
      Style.default.refined
        (((((nodeEmpty.computedStyle).2).setCascade 0 (some refFive)).style_cascade).merged) := by
  decide

/-- C1 (amended): the layout node's resolved style is computed lazily on the
first `computed_style()` call and cached without any invalidation: if the
cache is still empty after a `set(slot, refinement)` on the cascade, the
next `computed_style()` returns the default style refined by the new merged
cascade; but once the cache holds a snapshot, later `set` calls leave
subsequent `computed_style()` results at that stale snapshot. -/
theorem C1_lazy_uninvalidated_cache (n : LayoutNodeState) (slot : Nat)
    (r : Option StyleRefinement) :
    (n.computed_style = none →
      ((n.setCascade slot r).computedStyle).1 =
        Style.default.refined ((n.style_cascade.set slot r).merged)) ∧
    (∀ s, n.computed_style = some s →
      ((n.setCascade slot r).computedStyle).1 = s) := by
  constructor
  · intro h
    simp [LayoutNodeState.setCascade, LayoutNodeState.computedStyle, h]
  · intro s h
    simp [LayoutNodeState.setCascade, LayoutNodeState.computedStyle, h]

/-- C1 witness: on the fresh bare node (empty cache), a cascade write
followed by `computed_style()` does reflect the new merged cascade. -/
theorem C1_lazy_uninvalidated_cache_witness :
    nodeEmpty.computed_style = none ∧
    ((nodeEmpty.setCascade 0 (some refFive)).computedStyle).1 =
      Style.default.refined ((nodeEmpty.style_cascade.set 0 (some refFive)).merged) :=
  ⟨rfl, (C1_lazy_uninvalidated_cache nodeEmpty 0 (some refFive)).1 rfl⟩

/-- C2 counterexample: a press inside bounds followed in the SAME frame
(no intervening paint) by a release inside bounds invokes no click
listener at all — in that frame only the press listener is registered, so
the claim's "same or later frame" fails in the same-frame case. -/
theorem C2_same_frame_counterexample :
    boundsStd.containsPoint pIn = true ∧
    clickElem.listeners ≠ [] ∧
    (runFrames clickElem boundsStd ⟨none, 0, []⟩
      [[InputEvent.down ⟨pIn⟩, InputEvent.up ⟨pIn⟩]]).clicks = [] := by
  decide

/-- C2 (amended): a mouse-down inside the paint bounds followed, in a LATER
frame (after an intervening paint), by a mouse-up inside the paint bounds
causes every registered click listener to be invoked exactly once, in
registration order, with a click event whose `down` field is the press
event and whose `up` field is the release event; the mouse-down record is
clear afterwards. -/
theorem C2_click_next_frame (e : ClickableElement) (bounds : Bounds)
    (d : MouseDownEvent) (u : MouseUpEvent) (st : ClickDispatchState)
    (hL : e.listeners.isEmpty = false)
    (hrec : st.record = none)
    (hd : bounds.containsPoint d.position = true)
    (hu : bounds.containsPoint u.position = true) :
    (runFrames e bounds st [[InputEvent.down d], [InputEvent.up u]]).clicks =
      st.clicks ++ e.listeners.map (fun i => (i, MouseClickEvent.mk d u)) ∧
    (runFrames e bounds st [[InputEvent.down d], [InputEvent.up u]]).record = none := by
  constructor <;>
    simp [runFrames, runFrame, ClickableElement.paintRegister, dispatchEvent,
      MouseListener.runDown, MouseListener.runUp, hL, hrec, hd, hu]

/-- C2 witness: with two listeners registered (identifiers 3 then 8), a
press at (50,50) and a next-frame release at (50,50) inside (0,0)-(100,100)
invoke listener 3 then listener 8, each once, with the composed event. -/
theorem C2_click_next_frame_witness :
    (runFrames clickElemTwo boundsStd ⟨none, 0, []⟩
        [[InputEvent.down ⟨pIn⟩], [InputEvent.up ⟨pIn⟩]]).clicks =
      (⟨none, 0, []⟩ : ClickDispatchState).clicks ++
        clickElemTwo.listeners.map (fun i => (i, MouseClickEvent.mk ⟨pIn⟩ ⟨pIn⟩)) ∧
    (runFrames clickElemTwo boundsStd ⟨none, 0, []⟩
        [[InputEvent.down ⟨pIn⟩], [InputEvent.up ⟨pIn⟩]]).record = none :=
  C2_click_next_frame clickElemTwo boundsStd ⟨pIn⟩ ⟨pIn⟩ ⟨none, 0, []⟩
    (by decide) rfl (by decide) (by decide)

/-- C3 counterexample: with a press captured and the release listener
registered, a release OUTSIDE bounds (which clears the record) followed in
the same frame by a release INSIDE bounds — with no intervening press —
still fires the click listener, because the frame's registered release
listener captured the press event by value at paint time. -/
theorem C3_same_frame_counterexample :
    boundsStd.containsPoint pOut = false ∧
    boundsStd.containsPoint pIn = true ∧
    (runFrames clickElem boundsStd ⟨some ⟨pIn⟩, 0, []⟩
      [[InputEvent.up ⟨pOut⟩, InputEvent.up ⟨pIn⟩]]).clicks =
      [(0, MouseClickEvent.mk ⟨pIn⟩ ⟨pIn⟩)] := by
  decide

/-- C3 (amended): once a press has been captured, every invocation of the
registered release listener clears the mouse-down record and requests a
redraw, in any phase and wherever the release landed; a release outside
bounds invokes no click listener; and a release inside bounds in a LATER
frame (after the repaint the clearing release requested), with no
intervening press, fires no listener. -/
theorem C3_release_clears_unconditionally (e : ClickableElement) (bounds : Bounds)
    (d : MouseDownEvent) (u u1 u2 : MouseUpEvent) (phase : DispatchPhase)
    (st : ClickDispatchState)
    (hL : e.listeners.isEmpty = false)
    (hrec : st.record = some d)
    (h1 : bounds.containsPoint u1.position = false)
    (h2 : bounds.containsPoint u2.position = true) :
    ((MouseListener.upL bounds e.listeners d).runUp u phase st).record = none ∧
    ((MouseListener.upL bounds e.listeners d).runUp u phase st).notifies = st.notifies + 1 ∧
    ((MouseListener.upL bounds e.listeners d).runUp u1 phase st).clicks = st.clicks ∧
    (runFrames e bounds st [[InputEvent.up u1], [InputEvent.up u2]]).clicks = st.clicks ∧
    (runFrames e bounds st [[InputEvent.up u1], [InputEvent.up u2]]).record = none := by
  refine ⟨?_, ?_, ?_, ?_, ?_⟩
  · simp [MouseListener.runUp]
  · simp only [MouseListener.runUp]
    split <;> rfl
  · simp [MouseListener.runUp, h1]
  · simp [runFrames, runFrame, ClickableElement.paintRegister, dispatchEvent,
      MouseListener.runUp, MouseListener.runDown, hL, hrec, h1, h2]
  · simp [runFrames, runFrame, ClickableElement.paintRegister, dispatchEvent,
      MouseListener.runUp, MouseListener.runDown, hL, hrec, h1, h2]

/-- C3 witness: press captured at (50,50); release at (150,150) outside,
then next-frame release at (50,50) inside: the record is cleared, redraw
requested, and no listener fires. -/
theorem C3_release_clears_unconditionally_witness :
    ((MouseListener.upL boundsStd clickElem.listeners ⟨pIn⟩).runUp ⟨pIn⟩
        DispatchPhase.Capture ⟨some ⟨pIn⟩, 0, []⟩).record = none ∧
    ((MouseListener.upL boundsStd clickElem.listeners ⟨pIn⟩).runUp ⟨pIn⟩
        DispatchPhase.Capture ⟨some ⟨pIn⟩, 0, []⟩).notifies =
      (⟨some ⟨pIn⟩, 0, []⟩ : ClickDispatchState).notifies + 1 ∧
    ((MouseListener.upL boundsStd clickElem.listeners ⟨pIn⟩).runUp ⟨pOut⟩
        DispatchPhase.Capture ⟨some ⟨pIn⟩, 0, []⟩).clicks =
      (⟨some ⟨pIn⟩, 0, []⟩ : ClickDispatchState).clicks ∧
    (runFrames clickElem boundsStd ⟨some ⟨pIn⟩, 0, []⟩
        [[InputEvent.up ⟨pOut⟩], [InputEvent.up ⟨pIn⟩]]).clicks =
      (⟨some ⟨pIn⟩, 0, []⟩ : ClickDispatchState).clicks ∧
    (runFrames clickElem boundsStd ⟨some ⟨pIn⟩, 0, []⟩
        [[InputEvent.up ⟨pOut⟩], [InputEvent.up ⟨pIn⟩]]).record = none :=
  C3_release_clears_unconditionally clickElem boundsStd ⟨pIn⟩ ⟨pIn⟩ ⟨pOut⟩ ⟨pIn⟩
    DispatchPhase.Capture ⟨some ⟨pIn⟩, 0, []⟩ (by decide) rfl (by decide) (by decide)

/-- C4: `ClickableElement::paint` registers a mouse listener exactly when a
click listener is registered or the active style is non-empty; with no
mouse-down record it registers the press listener, which — at bubble phase,
press inside the paint bounds — stores the press into the record and
requests a redraw, and otherwise (outside bounds in any phase, or capture
phase) leaves the state, record included, unchanged. -/
theorem C4_press_listener_guarded (e : ClickableElement) (bounds : Bounds)
    (record : Option MouseDownEvent) (d : MouseDownEvent)
    (phase : DispatchPhase) (st : ClickDispatchState) :
    ((e.paintRegister bounds record).1.isSome =
      (!e.listeners.isEmpty || e.active_style.is_some)) ∧
    ((!e.listeners.isEmpty || e.active_style.is_some) = true → record = none →
      (e.paintRegister bounds record).1 = some (MouseListener.downL bounds)) ∧
    (bounds.containsPoint d.position = true →
      (MouseListener.downL bounds).runDown d DispatchPhase.Bubble st =
        { st with record := some d, notifies := st.notifies + 1 }) ∧
    (bounds.containsPoint d.position = false →
      (MouseListener.downL bounds).runDown d phase st = st) ∧
    (MouseListener.downL bounds).runDown d DispatchPhase.Capture st = st := by
  refine ⟨?_, ?_, ?_, ?_, ?_⟩
  · cases hg : (!e.listeners.isEmpty || e.active_style.is_some) <;>
      cases record <;> simp [ClickableElement.paintRegister, hg]
  · intro hg hr
    simp [ClickableElement.paintRegister, hg, hr]
  · intro h
    simp [MouseListener.runDown, h]
  · intro h
    simp [MouseListener.runDown, h]
  · simp [MouseListener.runDown]

/-- C4 witness: with one click listener registered and no record, the press
listener is registered; at bubble phase a press at (50,50) inside
(0,0)-(100,100) stores the record and requests a redraw, while a press at
(150,150) outside leaves the state unchanged. -/
theorem C4_press_listener_guarded_witness :
    (clickElem.paintRegister boundsStd none).1 = some (MouseListener.downL boundsStd) ∧
    (MouseListener.downL boundsStd).runDown ⟨pIn⟩ DispatchPhase.Bubble ⟨none, 0, []⟩ =
      ⟨some ⟨pIn⟩, 1, []⟩ ∧
    (MouseListener.downL boundsStd).runDown ⟨pOut⟩ DispatchPhase.Bubble ⟨none, 0, []⟩ =
      ⟨none, 0, []⟩ := by
  have h := C4_press_listener_guarded clickElem boundsStd none ⟨pIn⟩
    DispatchPhase.Bubble (⟨none, 0, []⟩ : ClickDispatchState)
  have hOut := C4_press_listener_guarded clickElem boundsStd none ⟨pOut⟩
    DispatchPhase.Bubble (⟨none, 0, []⟩ : ClickDispatchState)
  refine ⟨h.2.1 (by decide) rfl, ?_, hOut.2.2.2.1 (by decide)⟩
  rw [h.2.2.1 (by decide)]

/-- C5: every `HoverableElement::paint` computes pointer containment
against the target bounds (the named group's registered bounds when the
group is configured and found, the element's own paint bounds otherwise —
in particular when the configured group is missing from the registry),
sets the reserved cascade slot of the child to the hover refinement when
contained and clears that slot otherwise, leaves every other slot
untouched, stores the containment into the shared hover flag, and hands
the target bounds to the registered mouse-move listener. -/
theorem C5_hover_paint_containment (e : HoverableElement) (bounds : Bounds)
    (ctx : HoverCtx) (target : Bounds)
    (htarget : target =
      (e.group.bind fun g => group_bounds ctx.groups g).getD bounds) :
    ((e.paint bounds ctx).1.hovered = target.containsPoint ctx.mousePos) ∧
    ((e.paint bounds ctx).1.child.style_cascade.get e.cascade_slot =
      if target.containsPoint ctx.mousePos then some e.hover_style else none) ∧
    (∀ s, s ≠ e.cascade_slot →
      (e.paint bounds ctx).1.child.style_cascade.get s =
        e.child.style_cascade.get s) ∧
    ((e.paint bounds ctx).2.target = target) ∧
    (∀ g, e.group = some g → group_bounds ctx.groups g = none →
      target = bounds) := by
  subst htarget
  refine ⟨rfl, ?_, ?_, rfl, ?_⟩
  · simp [HoverableElement.paint, LayoutNodeState.setCascade,
      StyleCascade.get_set_self]
  · intro s hs
    simp [HoverableElement.paint, LayoutNodeState.setCascade,
      StyleCascade.get_set_ne _ _ _ _ hs]
  · intro g hg hnone
    rw [hg]
    simp [hnone]

/-- C5 witness: a hoverable wrapper configured with group "grp" that is
absent from the registry falls back to its own paint bounds; with the
pointer at (50,50) inside them, the flag is set, the hover refinement is
stored in slot 1, and slot 0 is untouched. -/
theorem C5_hover_paint_containment_witness :
    (hoverElem.paint boundsStd ⟨pIn, []⟩).1.hovered = true ∧
    (hoverElem.paint boundsStd ⟨pIn, []⟩).1.child.style_cascade.get
      hoverElem.cascade_slot = some hoverElem.hover_style ∧
    (hoverElem.paint boundsStd ⟨pIn, []⟩).2.target = boundsStd := by
  have h := C5_hover_paint_containment hoverElem boundsStd ⟨pIn, []⟩ boundsStd rfl
  refine ⟨?_, ?_, h.2.2.2.1⟩
  · rw [h.1]
    decide
  · rw [h.2.1]
    decide

/-- C6: the hoverable wrapper's mouse-move listener acts only in the
capture phase, and then only requests a redraw when fresh containment
differs from the stored hover flag — it never writes the flag; hence after
a paint followed by any sequence of mouse-move dispatches with no
intervening paint, the flag still equals the containment computed at that
paint (the one-frame lag invariant). -/
theorem C6_hover_flag_one_frame_lag (l : MoveListener) (ev : MouseMoveEvent)
    (phase : DispatchPhase) (st : HoverDispatchState) (e : HoverableElement)
    (bounds : Bounds) (ctx : HoverCtx)
    (moves : List (MouseMoveEvent × DispatchPhase)) (k : Nat) :
    (l.run ev phase st =
      if phase = DispatchPhase.Capture ∧ l.target.containsPoint ev.position ≠ st.flag
      then { st with notifies := st.notifies + 1 } else st) ∧
    ((l.run ev phase st).flag = st.flag) ∧
    ((moves.foldl (fun s m => ((e.paint bounds ctx).2).run m.1 m.2 s)
        ⟨(e.paint bounds ctx).1.hovered, k⟩).flag =
      ((e.group.bind fun g => group_bounds ctx.groups g).getD bounds).containsPoint
        ctx.mousePos) := by
  refine ⟨?_, moveRun_flag l ev phase st, ?_⟩
  · unfold MoveListener.run
    rcases phase with _ | _
    · by_cases h : l.target.containsPoint ev.position ≠ st.flag <;> simp [h]
    · simp
  · rw [moveFold_flag]
    rfl

/-- C10: whenever the clickable wrapper's registered release listener runs
after a captured press, it clears the mouse-down record and requests a
redraw in EVERY dispatch phase — capture included — and only the click
listener invocations are guarded by the bubble phase and the release point
lying inside the bounds; and with the guard satisfied, paint with a
captured press does register exactly that release listener. -/
theorem C10_release_clear_any_phase (e : ClickableElement) (bounds : Bounds)
    (d : MouseDownEvent) (u : MouseUpEvent) (phase : DispatchPhase)
    (st : ClickDispatchState) :
    (((MouseListener.upL bounds e.listeners d).runUp u phase st).record = none) ∧
    (((MouseListener.upL bounds e.listeners d).runUp u phase st).notifies =
      st.notifies + 1) ∧
    (((MouseListener.upL bounds e.listeners d).runUp u phase st).clicks =
      if phase = DispatchPhase.Bubble ∧ bounds.containsPoint u.position then
        st.clicks ++ e.listeners.map (fun i => (i, MouseClickEvent.mk d u))
      else st.clicks) ∧
    ((!e.listeners.isEmpty || e.active_style.is_some) = true →
      (e.paintRegister bounds (some d)).1 =
        some (MouseListener.upL bounds e.listeners d)) := by
  refine ⟨?_, ?_, ?_, ?_⟩
  · simp [MouseListener.runUp]
  · simp only [MouseListener.runUp]
    split <;> rfl
  · simp only [MouseListener.runUp]
    split <;> simp_all
  · intro hg
    simp [ClickableElement.paintRegister, hg]

/-- C10 witness: in the capture phase, with the release outside the bounds,
the release listener still clears the record and requests a redraw while
firing nothing; and the registration holds for the one-listener wrapper. -/
theorem C10_release_clear_any_phase_witness :
    ((MouseListener.upL boundsStd clickElem.listeners ⟨pIn⟩).runUp ⟨pOut⟩
        DispatchPhase.Capture ⟨some ⟨pIn⟩, 0, []⟩).record = none ∧
    ((MouseListener.upL boundsStd clickElem.listeners ⟨pIn⟩).runUp ⟨pOut⟩
        DispatchPhase.Capture ⟨some ⟨pIn⟩, 0, []⟩).notifies = 1 ∧
    (clickElem.paintRegister boundsStd (some ⟨pIn⟩)).1 =
      some (MouseListener.upL boundsStd clickElem.listeners ⟨pIn⟩) := by
  have h := C10_release_clear_any_phase clickElem boundsStd ⟨pIn⟩ ⟨pOut⟩
    DispatchPhase.Capture (⟨some ⟨pIn⟩, 0, []⟩ : ClickDispatchState)
  exact ⟨h.1, h.2.1, h.2.2.2 (by decide)⟩
